import Mathlib

/-!
Verification of the flowmeter firmware and host run controller.

Shallow embedding of:
* `Flowmeter/Flowmeter.ino` (combined flow sensor + HX711 scale firmware):
  the interrupt handler `countPulse`, the serial command handler, the
  periodic frame emission of `loop`, and the HX711 tare / averaging code
  of `setup` and `loop`.
* the host run controller embedded in the repository web page
  (`ws.onmessage` live/status/ack handlers and their state flags).

The firmware is modelled in two complementary views that share `DState`:
a counter/protocol view (`devStep`/`devRun`) in which the blocking HX711
read of the frame body is abstracted away -- sound for claims that only
concern the timestamp and pulse-count fields, because the source copies
`pulseCount` into the frame before the weight averaging loop runs -- and
a sampler view (`frameCheck`) that models the blocking weight read
explicitly with a readiness environment and fuel for the busy-waits.
-/

namespace Flowmeter

/-! ## Firmware constants (Flowmeter.ino) -/

/-- Modulus of the C `unsigned long` type: the firmware counter and `millis()` are 32-bit. -/
def u32 : Nat := 4294967296

/-- Constant `INTERVAL_MS = 500`: how often the firmware sends a CSV frame. -/
def INTERVAL_MS : Nat := 500

/-- Constant `TARE_READS = 20`: samples averaged for the tare offset in `setup`. -/
def TARE_READS : Nat := 20

/-- Constant `SOFT_AVG = 8`: samples averaged for each weight reading in `loop`. -/
def SOFT_AVG : Nat := 8

/-- Constant `COUNTS_PER_GRAM = -1153.584f`: calibration slope (modelled in ℚ). -/
def COUNTS_PER_GRAM : ℚ := -1153584 / 1000

/-! ## Device state and command handling -/

/-- Firmware globals: `pulseCount` (volatile unsigned long), the valve
output level (`digitalWrite(VALVE_SIG_PIN, ...)`), the HX711 tare
`offset`, and the static `lastPrint` of `loop`. -/
structure DState where
  pulseCount : Nat
  valve : Bool
  offset : Int
  lastPrint : Nat
deriving DecidableEq

/-- The interrupt handler `countPulse() { pulseCount++; }`: an unconditional
increment of the 32-bit counter.  It reads no clock and performs no
debounce check. -/
def countPulse (n : Nat) : Nat := (n + 1) % u32

/-- The command dispatch of `loop`: `'r'` clears the counter and prints
`reset-ack`, `'o'` opens the valve and prints `valve-open`, `'c'` closes
the valve and prints `valve-closed`; any other byte matches no branch and
is silently dropped. -/
def handleCmd (c : Char) (s : DState) : DState × List String :=
  if c = 'r' then ({ s with pulseCount := 0 }, ["reset-ack"])
  else if c = 'o' then ({ s with valve := true }, ["valve-open"])
  else if c = 'c' then ({ s with valve := false }, ["valve-closed"])
  else (s, [])

/-- 32-bit unsigned subtraction, as in `now - lastPrint` on `unsigned long`. -/
def u32sub (a b : Nat) : Nat := (a % u32 + (u32 - b % u32)) % u32

/-- Atomic events of a device session: a sensor edge (the interrupt fires),
a buffered serial byte consumed by `loop`, or the periodic frame check of
`loop` at a given `millis()` value. -/
inductive Ev where
  | edge : Ev
  | recv : Char → Ev
  | tick : Nat → Ev
deriving DecidableEq

/-- One atomic event; frames are `(timestamp, pulse_count)` pairs.  On a
tick the frame check fires when `now - lastPrint >= INTERVAL_MS` (32-bit
arithmetic); the count is the one captured under `noInterrupts()` before
the weight averaging, which is modelled separately by `frameCheck`. -/
def devStep (s : DState) : Ev → DState × List (Nat × Nat)
  | Ev.edge => ({ s with pulseCount := countPulse s.pulseCount }, [])
  | Ev.recv c => ((handleCmd c s).1, [])
  | Ev.tick now =>
      if INTERVAL_MS ≤ u32sub now s.lastPrint then
        ({ s with lastPrint := now % u32 }, [(now % u32, s.pulseCount)])
      else (s, [])

/-- Run a list of events, collecting the emitted frames in order. -/
def devRun : DState → List Ev → DState × List (Nat × Nat)
  | s, [] => (s, [])
  | s, e :: evs =>
      let p := devStep s e
      let q := devRun p.1 evs
      (q.1, p.2 ++ q.2)

/-- Number of edge interrupts in an event list. -/
def edgeCount (evs : List Ev) : Nat :=
  evs.countP (fun e => decide (e = Ev.edge))

/-- Device state right after reset at power-up: count 0, valve closed
(`digitalWrite(VALVE_SIG_PIN, LOW)`), offset as tared, `lastPrint = 0`. -/
def dInit : DState := ⟨0, false, 0, 0⟩

/-! ## HX711 sampler model

`scale.is_ready()` and `scale.read()` are modelled by an environment:
`ready p` is the result of the `p`-th readiness poll and `read r` the
value returned by the `r`-th `scale.read()` call.  The busy-wait loops
`while (!scale.is_ready()) {}` are given explicit fuel; returning `none`
means the wait (and hence `setup` or the frame body) never finishes. -/

/-- Amplifier environment: poll results and read values, by index. -/
structure ScaleEnv where
  ready : Nat → Bool
  read : Nat → Int

/-- The busy-wait `while (!scale.is_ready()) {}` starting at poll index
`p`: returns the poll index after the loop exits, or `none` if no poll
within `fuel` attempts reports ready. -/
def waitReady (env : ScaleEnv) : Nat → Nat → Option Nat
  | _, 0 => none
  | p, fuel + 1 => if env.ready p then some (p + 1) else waitReady env (p + 1) fuel

/-- The averaging loop `for (i = 0; i < n; ++i)` with body
`while (!is_ready()) {} acc += read();` -- accumulate `n` reads into `acc`
starting at poll index `p` and read index `r`; returns `(acc, p, r)`
after the loop, or `none` if a busy-wait never exits. -/
def accReads (env : ScaleEnv) : Nat → Nat → Nat → Int → Nat → Option (Int × Nat × Nat)
  | 0, p, r, acc, _ => some (acc, p, r)
  | n + 1, p, r, acc, fuel =>
      match waitReady env p fuel with
      | none => none
      | some p2 => accReads env n p2 (r + 1) (acc + env.read r) fuel

/-- Sum of `n` consecutive read values starting at read index `r`
(specification-side description of what `accReads` accumulates). -/
def readSum (env : ScaleEnv) : Nat → Nat → Int
  | _, 0 => 0
  | r, n + 1 => env.read r + readSum env (r + 1) n

/-- The tare of `setup`: accumulate `TARE_READS` reads (each behind an
unbounded busy-wait, here fuel-bounded) and divide by `TARE_READS` with
C++ `long` division (truncation toward zero, i.e. `Int.tdiv`).  `setup`
reaches the `ready` banner exactly when this returns `some`. -/
def tareOffset (env : ScaleEnv) (fuel : Nat) : Option Int :=
  match accReads env TARE_READS 0 0 0 fuel with
  | none => none
  | some x => some (Int.tdiv x.1 20)

/-- Statements `long raw = acc / SOFT_AVG;` and
`float g = (raw - offset) / COUNTS_PER_GRAM;` --
the grams value the firmware computes from the accumulated sum `acc`:
truncating integer division by 8 first, then the calibrated conversion
(the float conversion is modelled exactly in ℚ). -/
def gramsCode (acc : Int) (offset : Int) : ℚ :=
  (((Int.tdiv acc 8 : Int) : ℚ) - (offset : ℚ)) / COUNTS_PER_GRAM

/-- The grams formula as the spec states it: the exact mean of the raw
reads, minus the tare offset, divided by the calibration slope, with no
intermediate truncation.  Spec-side definition for comparison with
`gramsCode`. -/
def gramsExact (acc : Int) (offset : Int) : ℚ :=
  ((acc : ℚ) / 8 - (offset : ℚ)) / COUNTS_PER_GRAM

/-- A frame as the spec describes it: timestamp, pulse count, and an
optional weight field. -/
structure WFrame where
  t : Nat
  count : Nat
  weight : Option ℚ
deriving DecidableEq

/-- The full periodic-frame body of `loop`, with the weight read modelled:
when the interval has elapsed, the firmware busy-waits through
`SOFT_AVG` reads (stalling emission forever if the amplifier never
becomes ready -- result `none`) and then emits one frame that always
carries the weight field. -/
def frameCheck (env : ScaleEnv) (s : DState) (now p r fuel : Nat) :
    Option (DState × List WFrame × Nat × Nat) :=
  if INTERVAL_MS ≤ u32sub now s.lastPrint then
    match accReads env SOFT_AVG p r 0 fuel with
    | none => none
    | some x =>
        some ({ s with lastPrint := now % u32 },
              [⟨now % u32, s.pulseCount, some (gramsCode x.1 s.offset)⟩], x.2.1, x.2.2)
  else some (s, [], p, r)

/-- An amplifier that never reports ready. -/
def neverReady : ScaleEnv := ⟨fun _ => false, fun _ => 0⟩

/-- An always-ready amplifier whose every read returns 40. -/
def env40 : ScaleEnv := ⟨fun _ => true, fun _ => 40⟩

/-- An always-ready amplifier reading 1 once and then 0. -/
def envSpike : ScaleEnv := ⟨fun _ => true, fun k => if k = 0 then 1 else 0⟩

/-- The state and frame produced by `frameCheck env40 dInit 600 0 0 1`. -/
def dOut40 : DState := ⟨0, false, 0, 600⟩

/-- The frame list produced by `frameCheck env40 dInit 600 0 0 1`. -/
def frameOut40 : List WFrame := [⟨600, 0, some (gramsCode 320 0)⟩]

/-! ## Host run controller model (web page `ws.onmessage` handlers)

State mirrors the run-time variables of the page: `armed`, `running`,
`startPending`, `t0`, `lastPulse`, `lastTime`, `lastChange`, `filtPps`,
`currentRun` (its dataset points) and the number of runs created.
Times are `performance.now()` values in milliseconds, modelled in ℚ. -/

/-- Constant `ALPHA = 0.5`: the configurable filter strength of the page. -/
def ALPHA : ℚ := 1 / 2

/-- Constant `NO_FLOW_MS = 3000`: the auto-stop inactivity window. -/
def NO_FLOW_MS : ℚ := 3000

/-- The smoothing update of the live handler:
`if (filtPps === null) filtPps = rawPps; else filtPps = ALPHA*rawPps + (1-ALPHA)*filtPps;` -/
def filtStep : Option ℚ → ℚ → ℚ
  | none, rawPps => rawPps
  | some f, rawPps => ALPHA * rawPps + (1 - ALPHA) * f

/-- Feed a sequence of raw instantaneous rates through the filter state
of the page, starting from the initial `filtPps = null`. -/
def applyRates (rs : List ℚ) : Option ℚ :=
  rs.foldl (fun f r => some (filtStep f r)) none

/-- Host run-controller state. -/
structure HostState where
  armed : Bool
  running : Bool
  startPending : Bool
  t0 : ℚ
  lastPulse : Int
  lastTime : ℚ
  lastChange : ℚ
  filtPps : Option ℚ
  curRun : Option (List (ℚ × ℚ))
  runsCount : Nat
deriving DecidableEq

/-- Live-frame handler (message type `live`) at message time `now` carrying a pulse
count `pulses`: arm→running transition on first pulse (creating a new run
when a start is pending), raw-rate computation and exponential smoothing
when the counter changed, point plotting, `lastChange` maintenance,
auto-stop after `NO_FLOW_MS` of zero increment (sending `stop`), and the
final `lastPulse`/`lastTime` update. -/
def liveStep (s : HostState) (pulses : Int) (now : ℚ) : HostState × List String :=
  let s1 :=
    if s.armed = true ∧ s.running = false ∧ pulses ≠ s.lastPulse then
      let sa :=
        if s.startPending = true then
          { s with curRun := some [], runsCount := s.runsCount + 1, startPending := false }
        else s
      { sa with running := true, t0 := now, lastChange := now, filtPps := none }
    else s
  let dt := (now - s1.lastTime) / 1000
  let s2 :=
    if 0 < dt ∧ pulses ≠ s1.lastPulse then
      let rawPps := ((pulses : ℚ) - (s1.lastPulse : ℚ)) / dt
      let nf := filtStep s1.filtPps rawPps
      let sb := { s1 with filtPps := some nf }
      if sb.running = true ∧ sb.curRun.isSome = true ∧ sb.t0 < now then
        { sb with curRun := sb.curRun.map (fun pts => pts ++ [((now - sb.t0) / 1000, nf)]) }
      else sb
    else s1
  let s3 := if pulses ≠ s2.lastPulse then { s2 with lastChange := now } else s2
  let s4 :=
    if s3.running = true ∧ NO_FLOW_MS < now - s3.lastChange then
      ({ s3 with armed := false, running := false, startPending := false }, ["stop"])
    else (s3, ([] : List String))
  ({ s4.1 with lastPulse := pulses, lastTime := now }, s4.2)

/-- Handler of the `started` acknowledgement: arms the
controller with a pending start and re-baselines the pulse counter and
clocks. -/
def startedAck (s : HostState) (now : ℚ) : HostState :=
  { s with armed := true, running := false, startPending := true,
           lastTime := now, lastChange := now, lastPulse := 0 }

/-- Handler of the `counter-reset` status message: `softReset()` (clear
the armed/running/pending flags, zero `lastPulse`, re-baseline
`lastTime`, close the current run) and then, if a start was pending,
re-enter the armed-with-pending-start condition. -/
def counterResetStep (s : HostState) (now : ℚ) : HostState :=
  let wasPending := s.startPending
  let sr := { s with armed := false, running := false, startPending := false,
                     lastPulse := 0, lastTime := now, curRun := none }
  if wasPending = true then { sr with armed := true, startPending := true } else sr

/-- Page state at load: all flags clear, no run, no filter state. -/
def hostInit : HostState :=
  ⟨false, false, false, 0, 0, 0, 0, none, none, 0⟩

/-- Process a list of `(pulses, now)` live frames in order, collecting the
messages sent on the WebSocket. -/
def runLive : HostState → List (Int × ℚ) → HostState × List String
  | s, [] => (s, [])
  | s, f :: fs =>
      let p := liveStep s f.1 f.2
      let q := runLive p.1 fs
      (q.1, p.2 ++ q.2)

/-- Ten seconds of live frames with a counter that never moves. -/
def noActivityTrace : List (Int × ℚ) :=
  [(0, 1000), (0, 2000), (0, 5000), (0, 10000)]

/-- An armed controller with a pending start (the state right after the
`started` acknowledgement, with some history in the other fields). -/
def sArmedPending : HostState :=
  { hostInit with armed := true, startPending := true }

/-- A running controller whose counter last changed at time 0 with value 5. -/
def sRunInactive : HostState :=
  { hostInit with armed := true, running := true, lastPulse := 5,
                  lastTime := 0, lastChange := 0, filtPps := some 10,
                  curRun := some [], runsCount := 1 }

/-! ## Helper lemmas -/

/-- Prepending a smaller head preserves a non-decreasing chain. -/
theorem chain_le_of_le {a b : Nat} {l : List Nat} (hab : a ≤ b)
    (h : List.Chain' (· ≤ ·) (b :: l)) : List.Chain' (· ≤ ·) (a :: l) := by
  cases l with
  | nil => simp
  | cons c l =>
    rw [List.chain'_cons] at h ⊢
    exact ⟨le_trans hab h.1, h.2⟩

/-- Commands other than `'r'` leave the pulse counter untouched. -/
theorem handleCmd_pulseCount {c : Char} (s : DState) (h : c ≠ 'r') :
    ((handleCmd c s).1).pulseCount = s.pulseCount := by
  unfold handleCmd
  split
  · exact absurd (by assumption) h
  · split
    · rfl
    · split <;> rfl

/-- Every command keeps a zero counter at zero. -/
theorem handleCmd_zero (c : Char) (s : DState) (h : s.pulseCount = 0) :
    ((handleCmd c s).1).pulseCount = 0 := by
  unfold handleCmd
  split
  · rfl
  · split
    · exact h
    · split <;> exact h

theorem devRun_chain (s : DState) (evs : List Ev)
    (hr : Ev.recv 'r' ∉ evs)
    (hof : s.pulseCount + edgeCount evs < u32) :
    List.Chain' (· ≤ ·) (s.pulseCount :: ((devRun s evs).2.map Prod.snd)) := by
  induction evs generalizing s with
  | nil => simp [devRun]
  | cons e evs ih =>
    have hr2 : Ev.recv 'r' ∉ evs := fun hm => hr (List.mem_cons_of_mem _ hm)
    cases e with
    | edge =>
      have hec : edgeCount (Ev.edge :: evs) = edgeCount evs + 1 := by
        simp [edgeCount, List.countP_cons]
      have hlt : s.pulseCount + 1 < u32 := by
        rw [hec] at hof; omega
      have hcp : countPulse s.pulseCount = s.pulseCount + 1 := by
        unfold countPulse
        exact Nat.mod_eq_of_lt hlt
      have ih2 := ih { s with pulseCount := countPulse s.pulseCount } hr2
        (by simp [hcp]; rw [hec] at hof; omega)
      have hle : s.pulseCount ≤ countPulse s.pulseCount := by rw [hcp]; omega
      simp only [devRun, devStep, List.nil_append]
      exact chain_le_of_le hle ih2
    | recv c =>
      have hc : c ≠ 'r' := by
        intro hcr
        exact hr (by simp [hcr])
      have hpc := handleCmd_pulseCount s hc
      have hec : edgeCount (Ev.recv c :: evs) = edgeCount evs := by
        simp [edgeCount, List.countP_cons]
      have ih2 := ih ((handleCmd c s).1) hr2 (by rw [hpc]; rw [hec] at hof; exact hof)
      simp only [devRun, devStep, List.nil_append]
      rw [hpc] at ih2
      exact ih2
    | tick now =>
      have hec : edgeCount (Ev.tick now :: evs) = edgeCount evs := by
        simp [edgeCount, List.countP_cons]
      rw [hec] at hof
      simp only [devRun, devStep]
      split
      · -- frame emitted
        have ih2 := ih { s with lastPrint := now % u32 } hr2 hof
        simp only [List.cons_append, List.nil_append, List.map_cons]
        exact List.Chain'.cons (le_refl _) ih2
      · simp only [List.nil_append]
        exact ih s hr2 hof

theorem devRun_zero (s : DState) (evs : List Ev)
    (h0 : s.pulseCount = 0) (he : Ev.edge ∉ evs) :
    ∀ f ∈ (devRun s evs).2, f.2 = 0 := by
  induction evs generalizing s with
  | nil => simp [devRun]
  | cons e evs ih =>
    have he2 : Ev.edge ∉ evs := fun hm => he (List.mem_cons_of_mem _ hm)
    cases e with
    | edge => exact absurd (List.mem_cons_self _ _) he
    | recv c =>
      simp only [devRun, devStep, List.nil_append]
      exact ih ((handleCmd c s).1) (handleCmd_zero c s h0) he2
    | tick now =>
      simp only [devRun, devStep]
      split
      · intro f hf
        simp only [List.cons_append, List.nil_append, List.mem_cons] at hf
        cases hf with
        | inl hfe => rw [hfe]; exact h0
        | inr hfm => exact ih { s with lastPrint := now % u32 } h0 he2 f hfm
      · simp only [List.nil_append]
        exact ih s h0 he2

/-- Claim C1 (code evaluation): the interrupt handler increments the count
unconditionally -- two edges in immediate succession (closer than any
debounce interval) each increment the counter, so the count rises by one
per edge, not one per cluster; `countPulse` consults no clock at all. -/
theorem c1_code_eval :
    (devRun dInit [Ev.edge, Ev.edge]).1.pulseCount = 2 ∧
      countPulse (countPulse 0) = 2 := by
  constructor <;> decide

/-- Claim C2: (1) over any event interleaving without a reset command (and
without counter overflow) the pulse counts of successively emitted frames
are non-decreasing from the initial count; (2) handling `'r'` is the only
event that sets the count to 0; (3) after a reset, every frame emitted
before any further edge interrupt reports pulse count 0 -- in particular a
reset drained before a frame tick yields 0 in that frame. -/
theorem c2_frames_monotone_reset :
    (∀ (s : DState) (evs : List Ev), Ev.recv 'r' ∉ evs →
        s.pulseCount + edgeCount evs < u32 →
        List.Chain' (· ≤ ·) (s.pulseCount :: ((devRun s evs).2.map Prod.snd)))
    ∧ (∀ s : DState, ((devStep s (Ev.recv 'r')).1).pulseCount = 0)
    ∧ (∀ (s : DState) (mid : List Ev), Ev.edge ∉ mid →
        ∀ f ∈ (devRun ((devStep s (Ev.recv 'r')).1) mid).2, f.2 = 0) := by
  refine ⟨devRun_chain, fun s => rfl, fun s mid he => ?_⟩
  exact devRun_zero _ mid rfl he

/-- Witness for C2 at a concrete session: an edge, a frame at 600 ms,
another edge and a frame at 1200 ms give the non-decreasing counts
0, 1, 2; and after a buffered reset both later command bytes and a frame
tick keep the reported count at 0. -/
theorem c2_frames_monotone_reset_witness :
    List.Chain' (· ≤ ·)
      (dInit.pulseCount ::
        ((devRun dInit [Ev.edge, Ev.tick 600, Ev.edge, Ev.tick 1200]).2.map Prod.snd))
    ∧ ((devStep ⟨7, false, 0, 0⟩ (Ev.recv 'r')).1).pulseCount = 0
    ∧ ∀ f ∈ (devRun ((devStep ⟨7, false, 0, 0⟩ (Ev.recv 'r')).1)
          [Ev.recv 'o', Ev.tick 600]).2, f.2 = 0 := by
  refine ⟨c2_frames_monotone_reset.1 dInit _ (by decide) (by decide),
    c2_frames_monotone_reset.2.1 ⟨7, false, 0, 0⟩,
    c2_frames_monotone_reset.2.2 ⟨7, false, 0, 0⟩ _ (by decide)⟩

/-- Claim C7 (code evaluation): the command dispatch has no `'t'` branch --
a `'t'` byte leaves the device state (including the tare offset)
unchanged and produces no acknowledgement line. -/
theorem c7_code_eval : ∀ s : DState, handleCmd 't' s = (s, []) :=
  fun _ => rfl

/-- Claim C10: handling `'r'` sets the pulse count to 0, emits exactly the
`reset-ack` line, and leaves the valve level, the tare offset and the
frame timer (`lastPrint`) unchanged. -/
theorem c10_reset_effect :
    ∀ s : DState, handleCmd 'r' s =
      ({ pulseCount := 0, valve := s.valve, offset := s.offset,
         lastPrint := s.lastPrint }, ["reset-ack"]) :=
  fun _ => rfl

/-- A busy-wait on a never-ready amplifier exits for no amount of fuel. -/
theorem waitReady_neverReady (p fuel : Nat) :
    waitReady neverReady p fuel = none := by
  induction fuel generalizing p with
  | zero => rfl
  | succ n ih =>
    have h : neverReady.ready p = false := rfl
    simp only [waitReady, h, Bool.false_eq_true, if_false]
    exact ih (p + 1)

/-- With a never-ready amplifier, any nonempty averaging loop hangs. -/
theorem accReads_neverReady (n p r : Nat) (acc : Int) (fuel : Nat) (hn : n ≠ 0) :
    accReads neverReady n p r acc fuel = none := by
  cases n with
  | zero => exact absurd rfl hn
  | succ m => simp [accReads, waitReady_neverReady]

/-- With an amplifier that answers every poll, the averaging loop
accumulates exactly the next `n` read values. -/
theorem accReads_ready (env : ScaleEnv) (hready : ∀ p, env.ready p = true)
    (n : Nat) : ∀ (p r : Nat) (acc : Int) (fuel : Nat), 1 ≤ fuel →
    accReads env n p r acc fuel = some (acc + readSum env r n, p + n, r + n) := by
  induction n with
  | zero => intro p r acc fuel _; simp [accReads, readSum]
  | succ m ih =>
    intro p r acc fuel hfuel
    obtain ⟨k, rfl⟩ : ∃ k, fuel = k + 1 := ⟨fuel - 1, by omega⟩
    have hw : waitReady env p (k + 1) = some (p + 1) := by
      simp [waitReady, hready p]
    rw [accReads, hw]
    show accReads env m (p + 1) (r + 1) (acc + env.read r) (k + 1) =
      some (acc + readSum env r (m + 1), p + (m + 1), r + (m + 1))
    have h0 : readSum env r (m + 1) = env.read r + readSum env (r + 1) m := rfl
    rw [ih (p + 1) (r + 1) (acc + env.read r) (k + 1) (by omega), h0]
    have h1 : p + 1 + m = p + (m + 1) := by omega
    have h2 : r + 1 + m = r + (m + 1) := by omega
    rw [h1, h2, add_assoc]

/-- Claim C5 counterexample: with an amplifier that never reports ready,
`setup` never completes its tare loop, for any number of busy-wait
iterations -- initialization does not terminate for every input. -/
theorem c5_counterexample : ¬ ∃ fuel, (tareOffset neverReady fuel).isSome := by
  rintro ⟨fuel, h⟩
  simp only [tareOffset, TARE_READS] at h
  rw [accReads_neverReady 20 0 0 0 fuel (by decide)] at h
  simp at h

/-- Claim C5 (amended): the startup tare busy-waits with no timeout: with
an amplifier that answers every readiness poll, `setup` completes and the
offset is the truncated mean of the 20 startup reads; with an amplifier
that is never ready, `setup` never completes, there being no bounded
readiness timeout and no unavailability marking. -/
theorem c5_amended_thm :
    (∀ env : ScaleEnv, (∀ p, env.ready p = true) → ∀ fuel, 1 ≤ fuel →
        tareOffset env fuel = some (Int.tdiv (readSum env 0 20) 20))
    ∧ (∀ fuel, tareOffset neverReady fuel = none) := by
  constructor
  · intro env hready fuel hfuel
    simp only [tareOffset, TARE_READS]
    rw [accReads_ready env hready 20 0 0 0 fuel hfuel]
    simp
  · intro fuel
    simp only [tareOffset, TARE_READS]
    rw [accReads_neverReady 20 0 0 0 fuel (by decide)]

/-- Witness for C5: an always-ready amplifier whose reads are all 40
completes the tare with offset 40. -/
theorem c5_amended_witness : tareOffset env40 1 = some 40 := by
  have h := c5_amended_thm.1 env40 (fun _ => rfl) 1 (le_refl 1)
  rw [h]
  rfl

/-- Claim C6 counterexample: when the amplifier is not ready at sample
time (and stays not ready), the frame body does not emit a weightless
frame -- it emits nothing at all: the busy-wait before each of the 8
reads never exits, so frame emission stalls for any fuel. -/
theorem c6_counterexample :
    ¬ ∃ fuel, (frameCheck neverReady dInit 600 0 0 fuel).isSome := by
  rintro ⟨fuel, h⟩
  simp only [frameCheck, SOFT_AVG] at h
  rw [if_pos (by decide), accReads_neverReady 8 0 0 0 fuel (by decide)] at h
  simp at h

/-- Claim C6 (amended): every frame the firmware emits carries the weight
field -- weight is never omitted; and when the amplifier is not ready at
sample time the loop busy-waits instead of omitting the field, so an
amplifier that never becomes ready stalls frame emission entirely. -/
theorem c6_amended_thm :
    (∀ (env : ScaleEnv) (s : DState) (now p r fuel : Nat),
        ∀ f ∈ (frameCheck env s now p r fuel).elim [] (fun x => x.2.1),
          f.weight.isSome = true)
    ∧ (∀ fuel, frameCheck neverReady dInit 600 0 0 fuel = none) := by
  constructor
  · intro env s now p r fuel
    simp only [frameCheck]
    split
    · cases hacc : accReads env SOFT_AVG p r 0 fuel with
      | none => simp [hacc]
      | some x => simp [hacc]
    · simp
  · intro fuel
    simp only [frameCheck, SOFT_AVG]
    rw [if_pos (by decide), accReads_neverReady 8 0 0 0 fuel (by decide)]

/-- Witness for C6: the frame emitted by an always-ready amplifier at
time 600 carries a weight field. -/
theorem c6_amended_witness :
    (⟨600, 0, some (gramsCode 320 0)⟩ : WFrame).weight.isSome = true := by
  refine c6_amended_thm.1 env40 dInit 600 0 0 1 _ ?_
  show (⟨600, 0, some (gramsCode 320 0)⟩ : WFrame) ∈ frameOut40
  exact List.mem_singleton.mpr rfl

/-- Claim C9 counterexample: with reads summing to 1 (one read of 1 and
seven of 0), the firmware's truncated integer mean makes the emitted
grams value 0, while the exact-mean formula of the claim gives a nonzero
value: truncation happens mid-computation, not only at formatting. -/
theorem c9_counterexample :
    frameCheck envSpike dInit 600 0 0 1 =
      some (dOut40, [⟨600, 0, some (gramsCode 1 0)⟩], 8, 8)
    ∧ gramsCode 1 0 = 0 ∧ gramsExact 1 0 ≠ 0 := by
  refine ⟨rfl, ?_, ?_⟩
  · have h : Int.tdiv 1 8 = 0 := by decide
    norm_num [gramsCode, COUNTS_PER_GRAM, h]
  · norm_num [gramsExact, COUNTS_PER_GRAM]

/-- Claim C9 (amended): the firmware divides the accumulated sums with
truncating integer division before the calibrated conversion; the
emitted grams value coincides with the exact-mean formula exactly when 8
divides the sum of the averaged reads, and the tare offset is the exact
mean exactly when 20 divides the tare sum. -/
theorem c9_amended_thm :
    (∀ acc offset : Int, (8 : Int) ∣ acc →
        gramsCode acc offset = gramsExact acc offset)
    ∧ (∀ acc : Int, (20 : Int) ∣ acc →
        ((Int.tdiv acc 20 : Int) : ℚ) = (acc : ℚ) / 20) := by
  constructor
  · rintro acc offset ⟨c, rfl⟩
    have h : Int.tdiv (8 * c) 8 = c := Int.mul_tdiv_cancel_left c (by norm_num)
    rw [gramsCode, gramsExact, h]
    congr 1
    push_cast
    ring
  · rintro acc ⟨c, rfl⟩
    have h : Int.tdiv (20 * c) 20 = c := Int.mul_tdiv_cancel_left c (by norm_num)
    rw [h]
    push_cast
    ring

/-- Witness for C9: a sum of 16 (divisible by 8) gives equal code and
exact grams, and a tare sum of 40 (divisible by 20) an exact offset. -/
theorem c9_amended_witness :
    gramsCode 16 3 = gramsExact 16 3
    ∧ ((Int.tdiv 40 20 : Int) : ℚ) = (40 : ℚ) / 20 :=
  ⟨c9_amended_thm.1 16 3 ⟨2, by norm_num⟩, c9_amended_thm.2 40 ⟨2, by norm_num⟩⟩

/-- Claim C3 (code evaluation): the page's rate filter is exponential
smoothing alone -- there is no median filter and no moving average, so a
single-sample spike of 100 in the raw rate propagates straight into the
filtered output (0, 0, 100 filters to 50 with the fixed α = 0.5, where a
median-filtered pipeline would leave it at 0). -/
theorem c3_code_eval : applyRates [0, 0, 100] = some 50 := by
  simp [applyRates, filtStep, ALPHA]
  norm_num

/-- Claim C4 counterexample: arm at time 0 and inject no counter activity
for ten seconds -- far beyond the 3000 ms auto-stop window.  The
controller stays armed, never reaches a stopped state and never sends a
stop request, because the auto-stop check requires `running`. -/
theorem c4_counterexample :
    ((runLive (startedAck hostInit 0) noActivityTrace).1.armed,
     (runLive (startedAck hostInit 0) noActivityTrace).1.running,
     (runLive (startedAck hostInit 0) noActivityTrace).2) = (true, false, []) := by
  norm_num [runLive, liveStep, startedAck, hostInit, noActivityTrace, NO_FLOW_MS, filtStep]

/-- Claim C4 (amended): auto-stop fires only from the Running state: a
live frame processed while not running never sends a stop request, so an
armed run with no activity at all stays armed indefinitely; when running
and the counter has not changed for more than the 3000 ms inactivity
window, the controller sends `stop` and clears the armed/running/pending
flags. -/
theorem c4_amended_thm :
    (∀ (s : HostState) (pulses : Int) (now : ℚ), s.running = false →
        (liveStep s pulses now).2 = [])
    ∧ (∀ (s : HostState) (pulses : Int) (now : ℚ),
        s.running = true → pulses = s.lastPulse →
        NO_FLOW_MS < now - s.lastChange →
        (liveStep s pulses now).2 = ["stop"]
        ∧ (liveStep s pulses now).1.armed = false
        ∧ (liveStep s pulses now).1.running = false
        ∧ (liveStep s pulses now).1.startPending = false) := by
  constructor
  · intro s pulses now h
    simp only [liveStep]
    split_ifs <;> simp_all [NO_FLOW_MS] <;> linarith
  · intro s pulses now h1 h2 h3
    simp [liveStep, h1, h2, h3]

/-- Witness for C4: a running controller with last change at time 0 and a
frozen counter receives a frame at 4000 ms: stop is sent and the run
flags drop; and the same frame processed by a non-running controller
sends nothing. -/
theorem c4_amended_witness :
    ((liveStep sRunInactive 5 4000).2 = ["stop"]
      ∧ (liveStep sRunInactive 5 4000).1.armed = false
      ∧ (liveStep sRunInactive 5 4000).1.running = false
      ∧ (liveStep sRunInactive 5 4000).1.startPending = false)
    ∧ (liveStep sArmedPending 0 4000).2 = [] := by
  refine ⟨c4_amended_thm.2 sRunInactive 5 4000 rfl rfl ?_,
    c4_amended_thm.1 sArmedPending 0 4000 rfl⟩
  norm_num [sRunInactive, hostInit, NO_FLOW_MS]

/-- Claim C8: a counter reset handled while armed with a pending start
re-enters the armed-with-pending-start state with the pulse baseline
cleared, and the next counter activity still triggers Running, creates
the new run, and computes its first rate from the post-reset baseline 0
(rate = pulses / elapsed since the reset re-baselined `lastTime`). -/
theorem c8_reset_pending_start (s : HostState) (tr : ℚ)
    (_hA : s.armed = true) (hP : s.startPending = true) :
    ((counterResetStep s tr).armed = true
      ∧ (counterResetStep s tr).startPending = true
      ∧ (counterResetStep s tr).running = false
      ∧ (counterResetStep s tr).lastPulse = 0)
    ∧ ∀ (pulses : Int) (now : ℚ), pulses ≠ 0 → tr < now →
        (liveStep (counterResetStep s tr) pulses now).1.running = true
        ∧ (liveStep (counterResetStep s tr) pulses now).1.curRun = some []
        ∧ (liveStep (counterResetStep s tr) pulses now).1.filtPps =
            some ((pulses : ℚ) / ((now - tr) / 1000)) := by
  constructor
  · simp [counterResetStep, hP]
  · intro pulses now hp htr
    have h0 : (0 : ℚ) < (now - tr) / 1000 := by
      apply div_pos (by linarith) (by norm_num)
    have hno : ¬ ((3000 : ℚ) < (0 : ℚ)) := by norm_num
    simp [liveStep, counterResetStep, hP, hp, h0, hno, filtStep, NO_FLOW_MS]

/-- Witness for C8: from an armed, pending controller a reset at 5000 ms
followed by 7 pulses at 5500 ms starts a fresh run with first rate
7 / 0.5 s. -/
theorem c8_reset_pending_start_witness :
    ((counterResetStep sArmedPending 5000).armed = true
      ∧ (counterResetStep sArmedPending 5000).startPending = true
      ∧ (counterResetStep sArmedPending 5000).running = false
      ∧ (counterResetStep sArmedPending 5000).lastPulse = 0)
    ∧ ((liveStep (counterResetStep sArmedPending 5000) 7 5500).1.running = true
      ∧ (liveStep (counterResetStep sArmedPending 5000) 7 5500).1.curRun = some []
      ∧ (liveStep (counterResetStep sArmedPending 5000) 7 5500).1.filtPps =
          some ((7 : ℚ) / ((5500 - 5000) / 1000))) := by
  have h := c8_reset_pending_start sArmedPending 5000 rfl rfl
  exact ⟨h.1, h.2 7 5500 (by norm_num) (by norm_num)⟩

end Flowmeter
